import Mathlib

/-!
Verification of the panel-splitter tiling engine.

The TypeScript sources under `src/panel-splitter/src` are embedded shallowly:
JavaScript numbers are modelled as exact rationals (`ℚ`), decimal number
printing (`String(n)` / `padStart`) as lists of characters produced by the
standard base-10 printer, and the fallible `computeGrid` as an `Except`.
The paper.js geometry engine used by `tiler.ts` is modelled by an oracle:
each primitive carries the outcome of its bounding-box test and of its
boolean intersection against the crop window, mirroring exactly the control
flow of `processSingleTile`.
-/

set_option maxHeartbeats 1000000

namespace PanelSplitter

/-! ## Data model (types.ts) -/

inductive UnitMode
  | auto
  | px96
  | px72
deriving DecidableEq

inductive ExportMode
  | laserSafe
  | fastClip
deriving DecidableEq

/-- The three numbering formats `'R01C01' | '01-01' | 'Tile_001'`. -/
inductive NumberingFormat
  | R01C01
  | rowDashCol
  | Tile001
deriving DecidableEq

inductive RegistrationMarkType
  | crosshair
  | pinhole
  | lmark
deriving DecidableEq

/-- `MarkPlacement = 'inside' | 'overlap'`. -/
inductive MarkPlacement
  | inside
  | overlap
deriving DecidableEq

structure RegistrationMarkSettings where
  enabled : Bool
  type : RegistrationMarkType
  placement : MarkPlacement
  size : ℚ
  strokeWidth : ℚ
  holeDiameter : ℚ
deriving DecidableEq

structure AssemblyMapSettings where
  enabled : Bool
  includeLabels : Bool
  includeThumbnails : Bool
deriving DecidableEq

structure Settings where
  bedWidth : ℚ
  bedHeight : ℚ
  margin : ℚ
  overlap : ℚ
  exportMode : ExportMode
  numberingEnabled : Bool
  numberingFormat : NumberingFormat
  startIndexAtOne : Bool
  guidesEnabled : Bool
  expandStrokes : Bool
  simplifyTolerance : ℚ
  exportEmptyTiles : Bool
  unitMode : UnitMode
  registrationMarks : RegistrationMarkSettings
  assemblyMap : AssemblyMapSettings
deriving DecidableEq

structure TileInfo where
  row : ℕ
  col : ℕ
  id : String
  label : String
  x : ℚ
  y : ℚ
  width : ℚ
  height : ℚ
  isEmpty : Bool
  hasUnsafeFallback : Bool
deriving DecidableEq

structure GridInfo where
  rows : ℤ
  cols : ℤ
  tileWidth : ℚ
  tileHeight : ℚ
  effectiveTileWidth : ℚ
  effectiveTileHeight : ℚ
  tiles : List TileInfo
deriving DecidableEq

/-! ## Decimal printing (model of JS `String(n)` and `padStart`) -/

/-- The decimal digit characters of `n`, as produced by the standard base-10
printer (model of JavaScript `String(n)` for a nonnegative integer). -/
def natChars (n : ℕ) : List Char := Nat.toDigits 10 n

/-- Model of JavaScript `str.padStart(target, fill)`. -/
def padStart (cs : List Char) (target : ℕ) (fill : Char) : List Char :=
  List.replicate (target - cs.length) fill ++ cs

/-- Decimal value of a character list; left inverse of the printer, used to
prove label injectivity. -/
def charsVal (cs : List Char) : ℕ :=
  cs.foldl (fun a c => 10 * a + (c.toNat - 48)) 0

/-! ## grid.ts -/

/-- `formatTileLabel` from grid.ts, producing the label character string. -/
def formatTileLabel (row col : ℕ) (format : NumberingFormat) (index : ℕ)
    (startAtOne : Bool) : String :=
  let offset : ℕ := if startAtOne then 1 else 0
  let r := padStart (natChars (row + offset)) 2 '0'
  let c := padStart (natChars (col + offset)) 2 '0'
  let i := padStart (natChars (index + offset)) 3 '0'
  match format with
  | NumberingFormat.R01C01 => String.mk ('R' :: r ++ 'C' :: c)
  | NumberingFormat.rowDashCol => String.mk (r ++ '-' :: c)
  | NumberingFormat.Tile001 => String.mk ('T' :: 'i' :: 'l' :: 'e' :: '_' :: i)

/-- The tile id `tile-{row}-{col}`. -/
def tileId (row col : ℕ) : String :=
  String.mk ('t' :: 'i' :: 'l' :: 'e' :: '-' :: natChars row ++ '-' :: natChars col)

/-- `count = max(1, ceil((size − overlap) / step))`, the per-axis tile count of
`computeGrid`. -/
def axisCount (size step ov : ℚ) : ℤ :=
  max 1 (Int.ceil ((size - ov) / step))

/-- The tile record pushed for cell `(row, col)` in `computeGrid`'s loop; the
running `index` equals `row * cols + col` in the row-major scan. -/
def gridTile (designWidthMm designHeightMm stepX stepY effW effH : ℚ)
    (format : NumberingFormat) (startAtOne : Bool) (colsN : ℕ)
    (row col : ℕ) : TileInfo :=
  let x : ℚ := col * stepX
  let y : ℚ := row * stepY
  { row := row
    col := col
    id := tileId row col
    label := formatTileLabel row col format (row * colsN + col) startAtOne
    x := x
    y := y
    width := min effW (designWidthMm - x)
    height := min effH (designHeightMm - y)
    isEmpty := false
    hasUnsafeFallback := false }

/-- The `GridInfo` built by `computeGrid` once both guards have passed. -/
def gridOf (designWidthMm designHeightMm : ℚ) (s : Settings) : GridInfo :=
  let effectiveTileWidth := s.bedWidth - 2 * s.margin
  let effectiveTileHeight := s.bedHeight - 2 * s.margin
  let stepX := effectiveTileWidth - s.overlap
  let stepY := effectiveTileHeight - s.overlap
  let cols : ℤ := axisCount designWidthMm stepX s.overlap
  let rows : ℤ := axisCount designHeightMm stepY s.overlap
  { rows := rows
    cols := cols
    tileWidth := s.bedWidth
    tileHeight := s.bedHeight
    effectiveTileWidth := effectiveTileWidth
    effectiveTileHeight := effectiveTileHeight
    tiles := (List.range rows.toNat).flatMap fun row =>
      (List.range cols.toNat).map fun col =>
        gridTile designWidthMm designHeightMm stepX stepY
          effectiveTileWidth effectiveTileHeight
          s.numberingFormat s.startIndexAtOne cols.toNat row col }

/-- `computeGrid` from grid.ts: both guard clauses throw, the rest builds the
grid. -/
def computeGrid (designWidthMm designHeightMm : ℚ) (s : Settings) :
    Except String GridInfo :=
  let effectiveTileWidth := s.bedWidth - 2 * s.margin
  let effectiveTileHeight := s.bedHeight - 2 * s.margin
  if effectiveTileWidth ≤ 0 ∨ effectiveTileHeight ≤ 0 then
    Except.error
      "Effective tile size is zero or negative. Reduce margin or increase bed size."
  else
    let stepX := effectiveTileWidth - s.overlap
    let stepY := effectiveTileHeight - s.overlap
    if stepX ≤ 0 ∨ stepY ≤ 0 then
      Except.error "Overlap is too large for the effective tile size."
    else
      Except.ok (gridOf designWidthMm designHeightMm s)

/-- The settings of the spec scenario: bed 300×200, margin 5, overlap 0 (the
application defaults). -/
def scenarioSettings : Settings :=
  { bedWidth := 300
    bedHeight := 200
    margin := 5
    overlap := 0
    exportMode := ExportMode.laserSafe
    numberingEnabled := true
    numberingFormat := NumberingFormat.R01C01
    startIndexAtOne := true
    guidesEnabled := false
    expandStrokes := false
    simplifyTolerance := 0
    exportEmptyTiles := false
    unitMode := UnitMode.auto
    registrationMarks :=
      { enabled := false
        type := RegistrationMarkType.crosshair
        placement := MarkPlacement.inside
        size := 6
        strokeWidth := 1/5
        holeDiameter := 2 }
    assemblyMap :=
      { enabled := true
        includeLabels := true
        includeThumbnails := false } }

/-! ## Axis arithmetic lemmas -/

theorem one_le_axisCount (size step ov : ℚ) : 1 ≤ axisCount size step ov :=
  le_max_left _ _

theorem axisCount_toNat_pos (size step ov : ℚ) :
    0 < (axisCount size step ov).toNat := by
  have h := one_le_axisCount size step ov
  omega

/-- In the degenerate case `size ≤ overlap` the axis count is exactly 1. -/
theorem axisCount_eq_one (size step ov : ℚ) (hstep : 0 < step)
    (h : size - ov ≤ 0) : axisCount size step ov = 1 := by
  have hq : (size - ov) / step ≤ 0 := by
    rw [div_nonpos_iff]
    exact Or.inr ⟨h, le_of_lt hstep⟩
  have hc : Int.ceil ((size - ov) / step) ≤ 0 := by
    rw [Int.ceil_le]
    exact_mod_cast hq
  unfold axisCount
  omega

/-- In the nondegenerate case the axis count is the bare ceiling. -/
theorem axisCount_eq_ceil (size step ov : ℚ) (hstep : 0 < step)
    (h : 0 < size - ov) : axisCount size step ov = Int.ceil ((size - ov) / step) := by
  have hq : 0 < (size - ov) / step := div_pos h hstep
  have hc : 0 < Int.ceil ((size - ov) / step) := Int.ceil_pos.mpr hq
  unfold axisCount
  omega

/-- A non-degenerate axis index stays strictly below `size − overlap` after
scaling by the step. -/
theorem axis_mul_lt (size step ov : ℚ) (hstep : 0 < step) (h : 0 < size - ov)
    (i : ℕ) (hi : i < (axisCount size step ov).toNat) :
    (i : ℚ) * step < size - ov := by
  have hcount := axisCount_eq_ceil size step ov hstep h
  have hiz : (i : ℤ) < axisCount size step ov := by omega
  rw [hcount] at hiz
  have hlt : ((i : ℤ) : ℚ) < (size - ov) / step := Int.lt_ceil.mp hiz
  have : (i : ℚ) < (size - ov) / step := by exact_mod_cast hlt
  calc (i : ℚ) * step < ((size - ov) / step) * step := by
        exact mul_lt_mul_of_pos_right this hstep
    _ = size - ov := div_mul_cancel₀ _ (ne_of_gt hstep)

/-- Every tile origin along an axis lies strictly inside the design extent. -/
theorem axis_origin_lt (size step ov : ℚ) (hstep : 0 < step) (hov : 0 ≤ ov)
    (hsize : 0 < size) (i : ℕ) (hi : i < (axisCount size step ov).toNat) :
    (i : ℚ) * step < size := by
  rcases le_or_lt (size - ov) 0 with hdeg | hpos
  · have h1 := axisCount_eq_one size step ov hstep hdeg
    have : i = 0 := by omega
    subst this
    simpa using hsize
  · have := axis_mul_lt size step ov hstep hpos i hi
    linarith

/-- The design extent is covered by `count` steps plus the overlap. -/
theorem axis_count_mul_ge (size step ov : ℚ) (hstep : 0 < step) :
    size - ov ≤ ((axisCount size step ov).toNat : ℚ) * step := by
  rcases le_or_lt (size - ov) 0 with hdeg | hpos
  · have h1 := axisCount_eq_one size step ov hstep hdeg
    rw [h1]
    simpa using le_trans hdeg (le_of_lt hstep)
  · have hcount := axisCount_eq_ceil size step ov hstep hpos
    have hle : (size - ov) / step ≤ (Int.ceil ((size - ov) / step) : ℚ) :=
      Int.le_ceil _
    have hnn : 0 ≤ axisCount size step ov :=
      le_trans zero_le_one (one_le_axisCount size step ov)
    have hcast : ((axisCount size step ov).toNat : ℚ)
        = ((axisCount size step ov : ℤ) : ℚ) := by
      exact_mod_cast congrArg (Int.cast : ℤ → ℚ) (Int.toNat_of_nonneg hnn)
    rw [hcast, hcount]
    calc size - ov = ((size - ov) / step) * step :=
          (div_mul_cancel₀ _ (ne_of_gt hstep)).symm
      _ ≤ (Int.ceil ((size - ov) / step) : ℚ) * step :=
          mul_le_mul_of_nonneg_right hle (le_of_lt hstep)

/-- Coverage along one axis: every point of `[0, size]` lands in the interval
of some tile index. -/
theorem axis_cover (size step ov : ℚ) (hstep : 0 < step) (hov : 0 ≤ ov)
    (p : ℚ) (hp0 : 0 ≤ p) (hps : p ≤ size) :
    ∃ i : ℕ, i < (axisCount size step ov).toNat ∧
      (i : ℚ) * step ≤ p ∧ p ≤ min ((i : ℚ) * step + (step + ov)) size := by
  set c := (axisCount size step ov).toNat with hc
  have hcpos : 0 < c := axisCount_toNat_pos size step ov
  have hq0 : 0 ≤ p / step := div_nonneg hp0 (le_of_lt hstep)
  have hfl0 : 0 ≤ Int.floor (p / step) := Int.floor_nonneg.mpr hq0
  set j := (Int.floor (p / step)).toNat with hj
  have hjcast : ((j : ℤ) : ℚ) = ((Int.floor (p / step) : ℤ) : ℚ) := by
    exact_mod_cast congrArg (Int.cast : ℤ → ℚ) (Int.toNat_of_nonneg hfl0)
  have hjle : (j : ℚ) ≤ p / step := by
    rw [show ((j : ℕ) : ℚ) = ((j : ℤ) : ℚ) by push_cast; ring, hjcast]
    exact Int.floor_le _
  have hjlt : p / step < (j : ℚ) + 1 := by
    rw [show ((j : ℕ) : ℚ) = ((j : ℤ) : ℚ) by push_cast; ring, hjcast]
    exact Int.lt_floor_add_one _
  rcases lt_or_le j c with hjc | hcj
  · refine ⟨j, hjc, ?_, ?_⟩
    · calc (j : ℚ) * step ≤ (p / step) * step :=
            mul_le_mul_of_nonneg_right hjle (le_of_lt hstep)
        _ = p := div_mul_cancel₀ _ (ne_of_gt hstep)
    · refine le_min ?_ hps
      have : p < ((j : ℚ) + 1) * step := by
        calc p = (p / step) * step := (div_mul_cancel₀ _ (ne_of_gt hstep)).symm
          _ < ((j : ℚ) + 1) * step := mul_lt_mul_of_pos_right hjlt hstep
      nlinarith
  · refine ⟨c - 1, by omega, ?_, ?_⟩
    · have hle : ((c : ℚ) - 1) ≤ (j : ℚ) := by
        have : (c : ℚ) ≤ (j : ℚ) := by exact_mod_cast hcj
        linarith
      have hcast : (((c - 1 : ℕ)) : ℚ) = (c : ℚ) - 1 := by
        have : (1 : ℕ) ≤ c := hcpos
        push_cast [Nat.cast_sub this]
        ring
      rw [hcast]
      calc ((c : ℚ) - 1) * step ≤ (j : ℚ) * step :=
            mul_le_mul_of_nonneg_right hle (le_of_lt hstep)
        _ ≤ (p / step) * step := mul_le_mul_of_nonneg_right hjle (le_of_lt hstep)
        _ = p := div_mul_cancel₀ _ (ne_of_gt hstep)
    · refine le_min ?_ hps
      have hcast : (((c - 1 : ℕ)) : ℚ) = (c : ℚ) - 1 := by
        have : (1 : ℕ) ≤ c := hcpos
        push_cast [Nat.cast_sub this]
        ring
      have hge := axis_count_mul_ge size step ov hstep
      rw [hcast]
      have : size ≤ (c : ℚ) * step + ov := by linarith
      nlinarith [hps]

/-- Interior (non-final) indices along an axis keep the full effective width. -/
theorem axis_full_width (size step ov : ℚ) (hstep : 0 < step) (i : ℕ)
    (hi : i + 1 < (axisCount size step ov).toNat) :
    min (step + ov) (size - (i : ℚ) * step) = step + ov := by
  have hpos : 0 < size - ov := by
    by_contra hneg
    push_neg at hneg
    have h1 := axisCount_eq_one size step ov hstep hneg
    omega
  have hlt := axis_mul_lt size step ov hstep hpos (i + 1) hi
  apply min_eq_left
  push_cast at hlt
  nlinarith

/-- Every tile along a non-degenerate axis is strictly wider than the overlap. -/
theorem axis_width_gt_ov (size step ov : ℚ) (hstep : 0 < step)
    (hpos : 0 < size - ov) (i : ℕ) (hi : i < (axisCount size step ov).toNat) :
    ov < min (step + ov) (size - (i : ℚ) * step) := by
  have hlt := axis_mul_lt size step ov hstep hpos i hi
  apply lt_min
  · linarith
  · linarith

/-! ## Grid-level helper lemmas -/

theorem computeGrid_eq_ok (W H : ℚ) (s : Settings)
    (heffW : 0 < s.bedWidth - 2 * s.margin)
    (heffH : 0 < s.bedHeight - 2 * s.margin)
    (hstepX : 0 < s.bedWidth - 2 * s.margin - s.overlap)
    (hstepY : 0 < s.bedHeight - 2 * s.margin - s.overlap) :
    computeGrid W H s = Except.ok (gridOf W H s) := by
  simp only [computeGrid]
  rw [if_neg (by push_neg; exact ⟨by linarith, by linarith⟩),
    if_neg (by push_neg; exact ⟨by linarith, by linarith⟩)]

theorem mem_gridOf_tiles (W H : ℚ) (s : Settings) (t : TileInfo) :
    t ∈ (gridOf W H s).tiles ↔
    ∃ r, r < (axisCount H (s.bedHeight - 2 * s.margin - s.overlap) s.overlap).toNat ∧
    ∃ c, c < (axisCount W (s.bedWidth - 2 * s.margin - s.overlap) s.overlap).toNat ∧
      t = gridTile W H (s.bedWidth - 2 * s.margin - s.overlap)
            (s.bedHeight - 2 * s.margin - s.overlap)
            (s.bedWidth - 2 * s.margin) (s.bedHeight - 2 * s.margin)
            s.numberingFormat s.startIndexAtOne
            (axisCount W (s.bedWidth - 2 * s.margin - s.overlap) s.overlap).toNat
            r c := by
  simp only [gridOf, List.mem_flatMap, List.mem_map, List.mem_range]
  constructor
  · rintro ⟨r, hr, c, hc, rfl⟩
    exact ⟨r, hr, c, hc, rfl⟩
  · rintro ⟨r, hr, c, hc, rfl⟩
    exact ⟨r, hr, c, hc, rfl⟩

theorem length_gridOf_tiles (W H : ℚ) (s : Settings) :
    (gridOf W H s).tiles.length
      = (gridOf W H s).rows.toNat * (gridOf W H s).cols.toNat := by
  simp [gridOf, List.length_flatMap, Function.comp_def, List.map_const',
    List.sum_replicate, smul_eq_mul]

/-! ## C1 -/

/-- C1: for settings accepted by `computeGrid` (positive effective tile size
and positive step per axis), the grid has
`cols = max(1, ceil((designWidth − overlap)/stepX))` and
`rows = max(1, ceil((designHeight − overlap)/stepY))`, each tile has origin
`(col*stepX, row*stepY)` and size
`min(effW, designWidth − x) × min(effH, designHeight − y)`; and in the
scenario design 600×400, bed 300×200, margin 5, overlap 0 this yields
effective tile 290×190, a 3×3 grid of 9 tiles, and last-column width 20. -/
theorem computeGrid_formula (W H : ℚ) (s : Settings)
    (heffW : 0 < s.bedWidth - 2 * s.margin)
    (heffH : 0 < s.bedHeight - 2 * s.margin)
    (hstepX : 0 < s.bedWidth - 2 * s.margin - s.overlap)
    (hstepY : 0 < s.bedHeight - 2 * s.margin - s.overlap) :
    computeGrid W H s = Except.ok (gridOf W H s) ∧
    (gridOf W H s).cols
      = max 1 (Int.ceil ((W - s.overlap) / (s.bedWidth - 2 * s.margin - s.overlap))) ∧
    (gridOf W H s).rows
      = max 1 (Int.ceil ((H - s.overlap) / (s.bedHeight - 2 * s.margin - s.overlap))) ∧
    (∀ t ∈ (gridOf W H s).tiles,
      t.x = (t.col : ℚ) * (s.bedWidth - 2 * s.margin - s.overlap) ∧
      t.y = (t.row : ℚ) * (s.bedHeight - 2 * s.margin - s.overlap) ∧
      t.width = min (s.bedWidth - 2 * s.margin) (W - t.x) ∧
      t.height = min (s.bedHeight - 2 * s.margin) (H - t.y)) ∧
    (gridOf 600 400 scenarioSettings).effectiveTileWidth = 290 ∧
    (gridOf 600 400 scenarioSettings).effectiveTileHeight = 190 ∧
    (gridOf 600 400 scenarioSettings).cols = 3 ∧
    (gridOf 600 400 scenarioSettings).rows = 3 ∧
    (gridOf 600 400 scenarioSettings).tiles.length = 9 ∧
    (∀ t ∈ (gridOf 600 400 scenarioSettings).tiles, t.col = 2 → t.width = 20) := by
  have hceilW : Int.ceil (((600 : ℚ) - 0) / (300 - 2 * 5 - 0)) = 3 := by
    rw [Int.ceil_eq_iff]
    norm_num
  have hceilH : Int.ceil (((400 : ℚ) - 0) / (200 - 2 * 5 - 0)) = 3 := by
    rw [Int.ceil_eq_iff]
    norm_num
  have hcols3 : (gridOf 600 400 scenarioSettings).cols = 3 := by
    show axisCount 600 (scenarioSettings.bedWidth - 2 * scenarioSettings.margin
      - scenarioSettings.overlap) scenarioSettings.overlap = 3
    simp only [scenarioSettings, axisCount]
    rw [hceilW]
    rfl
  have hrows3 : (gridOf 600 400 scenarioSettings).rows = 3 := by
    show axisCount 400 (scenarioSettings.bedHeight - 2 * scenarioSettings.margin
      - scenarioSettings.overlap) scenarioSettings.overlap = 3
    simp only [scenarioSettings, axisCount]
    rw [hceilH]
    rfl
  refine ⟨computeGrid_eq_ok W H s heffW heffH hstepX hstepY, rfl, rfl, ?_, by
    norm_num [gridOf, scenarioSettings], by norm_num [gridOf, scenarioSettings],
    hcols3, hrows3, ?_, ?_⟩
  · intro t ht
    rw [mem_gridOf_tiles] at ht
    obtain ⟨r, hr, c, hc, rfl⟩ := ht
    simp [gridTile]
  · rw [length_gridOf_tiles, hcols3, hrows3]
    rfl
  · intro t ht hcol
    rw [mem_gridOf_tiles] at ht
    obtain ⟨r, hr, c, hc, rfl⟩ := ht
    have hc2 : c = 2 := by simpa [gridTile] using hcol
    subst hc2
    simp only [gridTile, scenarioSettings]
    norm_num

/-- Witness for C1 at the spec scenario. -/
theorem computeGrid_formula_witness :
    (0 < scenarioSettings.bedWidth - 2 * scenarioSettings.margin) ∧
    (0 < scenarioSettings.bedHeight - 2 * scenarioSettings.margin) ∧
    (0 < scenarioSettings.bedWidth - 2 * scenarioSettings.margin
      - scenarioSettings.overlap) ∧
    (0 < scenarioSettings.bedHeight - 2 * scenarioSettings.margin
      - scenarioSettings.overlap) ∧
    computeGrid 600 400 scenarioSettings
      = Except.ok (gridOf 600 400 scenarioSettings) ∧
    (gridOf 600 400 scenarioSettings).cols = 3 ∧
    (gridOf 600 400 scenarioSettings).rows = 3 ∧
    (gridOf 600 400 scenarioSettings).tiles.length = 9 := by
  have h1 : (0 : ℚ) < scenarioSettings.bedWidth - 2 * scenarioSettings.margin := by
    simp only [scenarioSettings]
    norm_num
  have h2 : (0 : ℚ) < scenarioSettings.bedHeight - 2 * scenarioSettings.margin := by
    simp only [scenarioSettings]
    norm_num
  have h3 : (0 : ℚ) < scenarioSettings.bedWidth - 2 * scenarioSettings.margin
      - scenarioSettings.overlap := by
    simp only [scenarioSettings]
    norm_num
  have h4 : (0 : ℚ) < scenarioSettings.bedHeight - 2 * scenarioSettings.margin
      - scenarioSettings.overlap := by
    simp only [scenarioSettings]
    norm_num
  obtain ⟨hok, _, _, _, _, _, hc, hr, hlen, _⟩ :=
    computeGrid_formula 600 400 scenarioSettings h1 h2 h3 h4
  exact ⟨h1, h2, h3, h4, hok, hc, hr, hlen⟩

/-! ## C2 / C10 -/

/-- Overlap of the intervals of two adjacent indices along one axis is exactly
the configured overlap. -/
theorem axis_adjacent_overlap (size step ov : ℚ) (hstep : 0 < step) (i : ℕ)
    (hi1 : i + 1 < (axisCount size step ov).toNat) :
    min ((i : ℚ) * step + min (step + ov) (size - (i : ℚ) * step))
        (((i + 1 : ℕ) : ℚ) * step
          + min (step + ov) (size - ((i + 1 : ℕ) : ℚ) * step))
      - max ((i : ℚ) * step) (((i + 1 : ℕ) : ℚ) * step) = ov := by
  have hpos : 0 < size - ov := by
    by_contra hneg
    push_neg at hneg
    have h1 := axisCount_eq_one size step ov hstep hneg
    omega
  have hfull := axis_full_width size step ov hstep i hi1
  have hnext := axis_width_gt_ov size step ov hstep hpos (i + 1) hi1
  push_cast at hnext ⊢
  have hexp : ((i : ℚ) + 1) * step = (i : ℚ) * step + step := by ring
  rw [hexp] at hnext ⊢
  rw [hfull]
  rw [max_eq_right (by linarith : (i : ℚ) * step ≤ (i : ℚ) * step + step)]
  rw [min_eq_left (by linarith [le_of_lt hnext] :
    (i : ℚ) * step + (step + ov)
      ≤ (i : ℚ) * step + step + min (step + ov) (size - ((i : ℚ) * step + step)))]
  ring

/-- C2: for positive design dimensions and accepted settings, the tile
rectangles exactly cover `[0, designWidth] × [0, designHeight]` — every point
lies in some tile, no tile extends past the design boundary — and
horizontally (resp. vertically) adjacent tiles overlap by exactly `overlap`
along the shared axis. -/
theorem computeGrid_coverage (W H : ℚ) (s : Settings)
    (hW : 0 < W) (hH : 0 < H) (hm : 0 ≤ s.margin) (hov : 0 ≤ s.overlap)
    (heffW : 0 < s.bedWidth - 2 * s.margin)
    (heffH : 0 < s.bedHeight - 2 * s.margin)
    (hstepX : 0 < s.bedWidth - 2 * s.margin - s.overlap)
    (hstepY : 0 < s.bedHeight - 2 * s.margin - s.overlap) :
    computeGrid W H s = Except.ok (gridOf W H s) ∧
    (∀ p q : ℚ, 0 ≤ p → p ≤ W → 0 ≤ q → q ≤ H →
      ∃ t ∈ (gridOf W H s).tiles,
        t.x ≤ p ∧ p ≤ t.x + t.width ∧ t.y ≤ q ∧ q ≤ t.y + t.height) ∧
    (∀ t ∈ (gridOf W H s).tiles,
      0 ≤ t.x ∧ 0 ≤ t.y ∧ t.x + t.width ≤ W ∧ t.y + t.height ≤ H) ∧
    (0 < s.overlap → ∀ t₁ ∈ (gridOf W H s).tiles, ∀ t₂ ∈ (gridOf W H s).tiles,
      t₁.row = t₂.row → t₂.col = t₁.col + 1 →
      min (t₁.x + t₁.width) (t₂.x + t₂.width) - max t₁.x t₂.x = s.overlap) ∧
    (0 < s.overlap → ∀ t₁ ∈ (gridOf W H s).tiles, ∀ t₂ ∈ (gridOf W H s).tiles,
      t₁.col = t₂.col → t₂.row = t₁.row + 1 →
      min (t₁.y + t₁.height) (t₂.y + t₂.height) - max t₁.y t₂.y = s.overlap) := by
  refine ⟨computeGrid_eq_ok W H s heffW heffH hstepX hstepY, ?_, ?_, ?_, ?_⟩
  · intro p q hp0 hpW hq0 hqH
    obtain ⟨c, hc, hcle, hcmin⟩ := axis_cover W
      (s.bedWidth - 2 * s.margin - s.overlap) s.overlap hstepX hov p hp0 hpW
    obtain ⟨r, hr, hrle, hrmin⟩ := axis_cover H
      (s.bedHeight - 2 * s.margin - s.overlap) s.overlap hstepY hov q hq0 hqH
    rw [le_min_iff] at hcmin hrmin
    refine ⟨gridTile W H (s.bedWidth - 2 * s.margin - s.overlap)
      (s.bedHeight - 2 * s.margin - s.overlap)
      (s.bedWidth - 2 * s.margin) (s.bedHeight - 2 * s.margin)
      s.numberingFormat s.startIndexAtOne
      (axisCount W (s.bedWidth - 2 * s.margin - s.overlap) s.overlap).toNat r c,
      (mem_gridOf_tiles W H s _).mpr ⟨r, hr, c, hc, rfl⟩, ?_, ?_, ?_, ?_⟩
    · simpa [gridTile] using hcle
    · simp only [gridTile]
      rcases le_total (s.bedWidth - 2 * s.margin)
        (W - (c : ℚ) * (s.bedWidth - 2 * s.margin - s.overlap)) with hmin | hmin
      · rw [min_eq_left hmin]
        linarith [hcmin.1]
      · rw [min_eq_right hmin]
        linarith [hcmin.2]
    · simpa [gridTile] using hrle
    · simp only [gridTile]
      rcases le_total (s.bedHeight - 2 * s.margin)
        (H - (r : ℚ) * (s.bedHeight - 2 * s.margin - s.overlap)) with hmin | hmin
      · rw [min_eq_left hmin]
        linarith [hrmin.1]
      · rw [min_eq_right hmin]
        linarith [hrmin.2]
  · intro t ht
    rw [mem_gridOf_tiles] at ht
    obtain ⟨r, hr, c, hc, rfl⟩ := ht
    simp only [gridTile]
    refine ⟨mul_nonneg (Nat.cast_nonneg c) (le_of_lt hstepX),
      mul_nonneg (Nat.cast_nonneg r) (le_of_lt hstepY), ?_, ?_⟩
    · have := min_le_right (s.bedWidth - 2 * s.margin)
        (W - (c : ℚ) * (s.bedWidth - 2 * s.margin - s.overlap))
      linarith
    · have := min_le_right (s.bedHeight - 2 * s.margin)
        (H - (r : ℚ) * (s.bedHeight - 2 * s.margin - s.overlap))
      linarith
  · intro _ t₁ ht₁ t₂ ht₂ hrow hcol
    rw [mem_gridOf_tiles] at ht₁ ht₂
    obtain ⟨r₁, hr₁, c₁, hc₁, rfl⟩ := ht₁
    obtain ⟨r₂, hr₂, c₂, hc₂, rfl⟩ := ht₂
    have hc₂eq : c₂ = c₁ + 1 := by simpa [gridTile] using hcol
    subst hc₂eq
    have key := axis_adjacent_overlap W
      (s.bedWidth - 2 * s.margin - s.overlap) s.overlap hstepX c₁ hc₂
    simp only [gridTile]
    convert key using 4 <;> ring
  · intro _ t₁ ht₁ t₂ ht₂ hcol hrow
    rw [mem_gridOf_tiles] at ht₁ ht₂
    obtain ⟨r₁, hr₁, c₁, hc₁, rfl⟩ := ht₁
    obtain ⟨r₂, hr₂, c₂, hc₂, rfl⟩ := ht₂
    have hr₂eq : r₂ = r₁ + 1 := by simpa [gridTile] using hrow
    subst hr₂eq
    have key := axis_adjacent_overlap H
      (s.bedHeight - 2 * s.margin - s.overlap) s.overlap hstepY r₁ hr₂
    simp only [gridTile]
    convert key using 4 <;> ring

/-- Witness for C2: the scenario settings with a 1-unit overlap satisfy all
hypotheses and the grid computation succeeds. -/
theorem computeGrid_coverage_witness :
    (0 : ℚ) < 600 ∧ (0 : ℚ) < 400 ∧
    (0 : ℚ) ≤ scenarioSettings.margin ∧ (0 : ℚ) ≤ scenarioSettings.overlap ∧
    (0 : ℚ) < scenarioSettings.bedWidth - 2 * scenarioSettings.margin ∧
    (0 : ℚ) < scenarioSettings.bedHeight - 2 * scenarioSettings.margin ∧
    (0 : ℚ) < scenarioSettings.bedWidth - 2 * scenarioSettings.margin
      - scenarioSettings.overlap ∧
    (0 : ℚ) < scenarioSettings.bedHeight - 2 * scenarioSettings.margin
      - scenarioSettings.overlap ∧
    computeGrid 600 400 scenarioSettings
      = Except.ok (gridOf 600 400 scenarioSettings) := by
  have h1 : (0 : ℚ) < 600 := by norm_num
  have h2 : (0 : ℚ) < 400 := by norm_num
  have h3 : (0 : ℚ) ≤ scenarioSettings.margin := by
    simp only [scenarioSettings]
    norm_num
  have h4 : (0 : ℚ) ≤ scenarioSettings.overlap := by
    simp only [scenarioSettings]
    norm_num
  have h5 : (0 : ℚ) < scenarioSettings.bedWidth - 2 * scenarioSettings.margin := by
    simp only [scenarioSettings]
    norm_num
  have h6 : (0 : ℚ) < scenarioSettings.bedHeight - 2 * scenarioSettings.margin := by
    simp only [scenarioSettings]
    norm_num
  have h7 : (0 : ℚ) < scenarioSettings.bedWidth - 2 * scenarioSettings.margin
      - scenarioSettings.overlap := by
    simp only [scenarioSettings]
    norm_num
  have h8 : (0 : ℚ) < scenarioSettings.bedHeight - 2 * scenarioSettings.margin
      - scenarioSettings.overlap := by
    simp only [scenarioSettings]
    norm_num
  exact ⟨h1, h2, h3, h4, h5, h6, h7, h8,
    (computeGrid_coverage 600 400 scenarioSettings h1 h2 h3 h4 h5 h6 h7 h8).1⟩

/-- C10: for positive design dimensions and nonnegative overlap passing the
internal guards, every tile has strictly positive width and height and its
origin lies strictly inside the design bounds. -/
theorem gridOf_tiles_nondegenerate (W H : ℚ) (s : Settings)
    (hW : 0 < W) (hH : 0 < H) (hov : 0 ≤ s.overlap)
    (heffW : 0 < s.bedWidth - 2 * s.margin)
    (heffH : 0 < s.bedHeight - 2 * s.margin)
    (hstepX : 0 < s.bedWidth - 2 * s.margin - s.overlap)
    (hstepY : 0 < s.bedHeight - 2 * s.margin - s.overlap) :
    computeGrid W H s = Except.ok (gridOf W H s) ∧
    ∀ t ∈ (gridOf W H s).tiles,
      0 < t.width ∧ 0 < t.height ∧ t.x < W ∧ t.y < H := by
  refine ⟨computeGrid_eq_ok W H s heffW heffH hstepX hstepY, ?_⟩
  intro t ht
  rw [mem_gridOf_tiles] at ht
  obtain ⟨r, hr, c, hc, rfl⟩ := ht
  have hx := axis_origin_lt W (s.bedWidth - 2 * s.margin - s.overlap) s.overlap
    hstepX hov hW c hc
  have hy := axis_origin_lt H (s.bedHeight - 2 * s.margin - s.overlap) s.overlap
    hstepY hov hH r hr
  simp only [gridTile]
  refine ⟨lt_min heffW (by linarith), lt_min heffH (by linarith), hx, hy⟩

/-- Witness for C10 at the spec scenario. -/
theorem gridOf_tiles_nondegenerate_witness :
    (0 : ℚ) < 600 ∧ (0 : ℚ) < 400 ∧
    (0 : ℚ) ≤ scenarioSettings.overlap ∧
    (0 : ℚ) < scenarioSettings.bedWidth - 2 * scenarioSettings.margin ∧
    (0 : ℚ) < scenarioSettings.bedHeight - 2 * scenarioSettings.margin ∧
    (0 : ℚ) < scenarioSettings.bedWidth - 2 * scenarioSettings.margin
      - scenarioSettings.overlap ∧
    (0 : ℚ) < scenarioSettings.bedHeight - 2 * scenarioSettings.margin
      - scenarioSettings.overlap ∧
    computeGrid (600 : ℚ) (400 : ℚ) scenarioSettings
      = Except.ok (gridOf 600 400 scenarioSettings) := by
  have h1 : (0 : ℚ) < 600 := by norm_num
  have h2 : (0 : ℚ) < 400 := by norm_num
  have h4 : (0 : ℚ) ≤ scenarioSettings.overlap := by
    simp only [scenarioSettings]
    norm_num
  have h5 : (0 : ℚ) < scenarioSettings.bedWidth - 2 * scenarioSettings.margin := by
    simp only [scenarioSettings]
    norm_num
  have h6 : (0 : ℚ) < scenarioSettings.bedHeight - 2 * scenarioSettings.margin := by
    simp only [scenarioSettings]
    norm_num
  have h7 : (0 : ℚ) < scenarioSettings.bedWidth - 2 * scenarioSettings.margin
      - scenarioSettings.overlap := by
    simp only [scenarioSettings]
    norm_num
  have h8 : (0 : ℚ) < scenarioSettings.bedHeight - 2 * scenarioSettings.margin
      - scenarioSettings.overlap := by
    simp only [scenarioSettings]
    norm_num
  exact ⟨h1, h2, h4, h5, h6, h7, h8,
    (gridOf_tiles_nondegenerate 600 400 scenarioSettings h1 h2 h4 h5 h6 h7 h8).1⟩

/-! ## Decimal printer decode lemmas (for label uniqueness) -/

theorem toDigitsCore_succ (fuel n : ℕ) (ds : List Char) :
    Nat.toDigitsCore 10 (fuel + 1) n ds =
      if n / 10 = 0 then Nat.digitChar (n % 10) :: ds
      else Nat.toDigitsCore 10 fuel (n / 10) (Nat.digitChar (n % 10) :: ds) := rfl

theorem toDigitsCore_shift (n : ℕ) : ∀ (fuel : ℕ) (ds : List Char), n < fuel →
    Nat.toDigitsCore 10 fuel n ds = Nat.toDigits 10 n ++ ds := by
  induction n using Nat.strong_induction_on with
  | _ n ih =>
    intro fuel ds hlt
    obtain ⟨f, rfl⟩ : ∃ f, fuel = f + 1 := ⟨fuel - 1, by omega⟩
    rcases Nat.eq_zero_or_pos (n / 10) with hz | hp
    · rw [toDigitsCore_succ, if_pos hz]
      show _ = Nat.toDigitsCore 10 (n + 1) n [] ++ ds
      rw [toDigitsCore_succ, if_pos hz]
      rfl
    · have hdiv : n / 10 < n := by omega
      rw [toDigitsCore_succ, if_neg (by omega)]
      rw [ih (n / 10) hdiv f _ (by omega)]
      have hstep : Nat.toDigits 10 n
          = Nat.toDigits 10 (n / 10) ++ [Nat.digitChar (n % 10)] := by
        show Nat.toDigitsCore 10 (n + 1) n [] = _
        rw [toDigitsCore_succ, if_neg (by omega)]
        exact ih (n / 10) hdiv n _ (by omega)
      rw [hstep]
      simp

/-- Peeling the last decimal digit off the printer output. -/
theorem toDigits_step (n : ℕ) (h : 10 ≤ n) :
    Nat.toDigits 10 n = Nat.toDigits 10 (n / 10) ++ [Nat.digitChar (n % 10)] := by
  show Nat.toDigitsCore 10 (n + 1) n [] = _
  rw [toDigitsCore_succ, if_neg (by omega)]
  exact toDigitsCore_shift (n / 10) n _ (by omega)

theorem charsVal_append_singleton (l : List Char) (c : Char) :
    charsVal (l ++ [c]) = 10 * charsVal l + (c.toNat - 48) := by
  simp [charsVal, List.foldl_append]

theorem digitChar_toNat_sub : ∀ d, d < 10 → (Nat.digitChar d).toNat - 48 = d := by
  decide

/-- Decoding the decimal printer gives back the number. -/
theorem charsVal_natChars (n : ℕ) : charsVal (natChars n) = n := by
  induction n using Nat.strong_induction_on with
  | _ n ih =>
    rcases Nat.lt_or_ge n 10 with hn | h10
    · have hz : n / 10 = 0 := Nat.div_eq_of_lt hn
      show charsVal (Nat.toDigitsCore 10 (n + 1) n []) = n
      rw [toDigitsCore_succ, if_pos hz, Nat.mod_eq_of_lt hn]
      simp [charsVal]
      exact digitChar_toNat_sub n hn
    · have hlt : n / 10 < n := by omega
      show charsVal (Nat.toDigits 10 n) = n
      rw [toDigits_step n h10, charsVal_append_singleton]
      have hrec : charsVal (Nat.toDigits 10 (n / 10)) = n / 10 := ih (n / 10) hlt
      rw [hrec, digitChar_toNat_sub (n % 10) (Nat.mod_lt n (by omega))]
      omega

theorem charsVal_cons_zero (cs : List Char) (k : ℕ) :
    charsVal (List.replicate k '0' ++ cs) = charsVal cs := by
  induction k with
  | zero => simp
  | succ k ihk =>
    rw [List.replicate_succ]
    simpa [charsVal] using ihk

/-- Decoding a zero-padded decimal representation gives back the number. -/
theorem charsVal_padStart (n t : ℕ) :
    charsVal (padStart (natChars n) t '0') = n := by
  rw [padStart, charsVal_cons_zero, charsVal_natChars]

theorem mem_toDigitsCore (fuel : ℕ) : ∀ (n : ℕ) (ds : List Char) (c : Char),
    c ∈ Nat.toDigitsCore 10 fuel n ds →
    c ∈ ds ∨ ∃ d, d < 10 ∧ c = Nat.digitChar d := by
  induction fuel with
  | zero =>
    intro n ds c hc
    exact Or.inl hc
  | succ fuel ihf =>
    intro n ds c hc
    rw [toDigitsCore_succ] at hc
    split at hc
    · rcases List.mem_cons.mp hc with h | h
      · exact Or.inr ⟨n % 10, Nat.mod_lt n (by omega), h⟩
      · exact Or.inl h
    · rcases ihf (n / 10) _ c hc with h | h
      · rcases List.mem_cons.mp h with h2 | h2
        · exact Or.inr ⟨n % 10, Nat.mod_lt n (by omega), h2⟩
        · exact Or.inl h2
      · exact Or.inr h

theorem mem_padStart_natChars (n t : ℕ) (c : Char)
    (hc : c ∈ padStart (natChars n) t '0') :
    c = '0' ∨ ∃ d, d < 10 ∧ c = Nat.digitChar d := by
  rcases List.mem_append.mp hc with h | h
  · exact Or.inl (List.eq_of_mem_replicate h)
  · rcases mem_toDigitsCore (n + 1) n [] c h with h2 | h2
    · simp at h2
    · exact Or.inr h2

theorem digitChar_ne_sep : ∀ d, d < 10 →
    Nat.digitChar d ≠ 'C' ∧ Nat.digitChar d ≠ '-' := by decide

theorem sep_not_mem_pad (n t : ℕ) (sep : Char)
    (h0 : sep ≠ '0') (hd : ∀ d, d < 10 → Nat.digitChar d ≠ sep) :
    sep ∉ padStart (natChars n) t '0' := by
  intro hmem
  rcases mem_padStart_natChars n t sep hmem with h | ⟨d, hdlt, hdc⟩
  · exact h0 h
  · exact hd d hdlt hdc.symm

/-- Splitting a character list at a separator absent from both prefixes. -/
theorem append_sep_inj {sep : Char} :
    ∀ {l1 l1' l2 l2' : List Char}, sep ∉ l1 → sep ∉ l1' →
    l1 ++ sep :: l2 = l1' ++ sep :: l2' → l1 = l1' ∧ l2 = l2' := by
  intro l1
  induction l1 with
  | nil =>
    intro l1' l2 l2' h1 h1' h
    cases l1' with
    | nil => simpa using h
    | cons b t' =>
      exfalso
      simp only [List.nil_append, List.cons_append, List.cons.injEq] at h
      exact h1' (h.1 ▸ List.mem_cons_self b t')
  | cons a t ih =>
    intro l1' l2 l2' h1 h1' h
    cases l1' with
    | nil =>
      exfalso
      simp only [List.nil_append, List.cons_append, List.cons.injEq] at h
      exact h1 (h.1.symm ▸ List.mem_cons_self a t)
    | cons b t' =>
      simp only [List.cons_append, List.cons.injEq] at h
      obtain ⟨rfl, h2⟩ := h
      have ht1 : sep ∉ t := fun hm => h1 (List.mem_cons_of_mem a hm)
      have ht1' : sep ∉ t' := fun hm => h1' (List.mem_cons_of_mem a hm)
      obtain ⟨rfl, rfl⟩ := ih ht1 ht1' h2
      exact ⟨rfl, rfl⟩

/-! ## Label injectivity and C6 -/

theorem padStart_natChars_inj {n m t t' : ℕ}
    (h : padStart (natChars n) t '0' = padStart (natChars m) t' '0') : n = m := by
  have h2 := congrArg charsVal h
  rwa [charsVal_padStart, charsVal_padStart] at h2

theorem sep_C_not_mem (n t : ℕ) : 'C' ∉ padStart (natChars n) t '0' :=
  sep_not_mem_pad n t 'C' (by decide) (by decide)

theorem sep_dash_not_mem (n t : ℕ) : '-' ∉ padStart (natChars n) t '0' :=
  sep_not_mem_pad n t '-' (by decide) (by decide)

theorem label_R01C01_inj {r c i r' c' i' : ℕ} {a : Bool}
    (h : formatTileLabel r c NumberingFormat.R01C01 i a
       = formatTileLabel r' c' NumberingFormat.R01C01 i' a) : r = r' ∧ c = c' := by
  simp only [formatTileLabel] at h
  have h2 := congrArg String.data h
  have h3 : padStart (natChars (r + if a then 1 else 0)) 2 '0'
        ++ 'C' :: padStart (natChars (c + if a then 1 else 0)) 2 '0'
      = padStart (natChars (r' + if a then 1 else 0)) 2 '0'
        ++ 'C' :: padStart (natChars (c' + if a then 1 else 0)) 2 '0' := by
    injection h2
  obtain ⟨hr, hc⟩ := append_sep_inj (sep_C_not_mem _ _) (sep_C_not_mem _ _) h3
  exact ⟨Nat.add_right_cancel (padStart_natChars_inj hr),
    Nat.add_right_cancel (padStart_natChars_inj hc)⟩

theorem label_dash_inj {r c i r' c' i' : ℕ} {a : Bool}
    (h : formatTileLabel r c NumberingFormat.rowDashCol i a
       = formatTileLabel r' c' NumberingFormat.rowDashCol i' a) :
    r = r' ∧ c = c' := by
  simp only [formatTileLabel] at h
  have h3 : padStart (natChars (r + if a then 1 else 0)) 2 '0'
        ++ '-' :: padStart (natChars (c + if a then 1 else 0)) 2 '0'
      = padStart (natChars (r' + if a then 1 else 0)) 2 '0'
        ++ '-' :: padStart (natChars (c' + if a then 1 else 0)) 2 '0' :=
    congrArg String.data h
  obtain ⟨hr, hc⟩ := append_sep_inj (sep_dash_not_mem _ _) (sep_dash_not_mem _ _) h3
  exact ⟨Nat.add_right_cancel (padStart_natChars_inj hr),
    Nat.add_right_cancel (padStart_natChars_inj hc)⟩

theorem label_tile_inj {r c i r' c' i' : ℕ} {a : Bool}
    (h : formatTileLabel r c NumberingFormat.Tile001 i a
       = formatTileLabel r' c' NumberingFormat.Tile001 i' a) : i = i' := by
  simp only [formatTileLabel] at h
  have h2 := congrArg String.data h
  have h3 : padStart (natChars (i + if a then 1 else 0)) 3 '0'
      = padStart (natChars (i' + if a then 1 else 0)) 3 '0' := by
    simp only [List.cons.injEq, eq_self_iff_true, true_and] at h2
    exact h2
  exact Nat.add_right_cancel (padStart_natChars_inj h3)

/-- A label family injective on grid coordinates yields a duplicate-free
row-major label list. -/
theorem nodup_label_grid (R C : ℕ) (f : ℕ → ℕ → String)
    (hinj : ∀ r c r' c', c < C → c' < C → f r c = f r' c' → r = r' ∧ c = c') :
    (((List.range R).flatMap fun r => (List.range C).map fun c => f r c)).Nodup := by
  rw [List.nodup_flatMap]
  constructor
  · intro r _
    refine List.Nodup.map_on ?_ (List.nodup_range C)
    intro x hx y hy hxy
    exact (hinj r x r y (List.mem_range.mp hx) (List.mem_range.mp hy) hxy).2
  · refine List.Pairwise.imp ?_ (List.nodup_range R)
    intro a b hab
    simp only [Function.onFun, List.Disjoint]
    intro lbl hlbl hlbl'
    obtain ⟨x, hx, hxe⟩ := List.mem_map.mp hlbl
    obtain ⟨y, hy, hye⟩ := List.mem_map.mp hlbl'
    exact hab ((hinj a x b y (List.mem_range.mp hx) (List.mem_range.mp hy)
      (hxe.trans hye.symm)).1)

/-- Inversion: `computeGrid` only ever succeeds with the grid built by
`gridOf`. -/
theorem computeGrid_ok_inv {W H : ℚ} {s : Settings} {g : GridInfo}
    (h : computeGrid W H s = Except.ok g) : g = gridOf W H s := by
  simp only [computeGrid] at h
  split_ifs at h
  injection h with h
  exact h.symm

/-- C6: in any `GridSpec` produced by `computeGrid` — any row/column counts,
any of the three numbering formats, either start-index convention — no two
tiles share a label. -/
theorem computeGrid_labels_nodup (W H : ℚ) (s : Settings) (g : GridInfo)
    (h : computeGrid W H s = Except.ok g) :
    (g.tiles.map TileInfo.label).Nodup := by
  have hg := computeGrid_ok_inv h
  subst hg
  have htiles : (gridOf W H s).tiles.map TileInfo.label
      = (List.range
          (axisCount H (s.bedHeight - 2 * s.margin - s.overlap) s.overlap).toNat).flatMap
          fun r => (List.range
            (axisCount W (s.bedWidth - 2 * s.margin - s.overlap) s.overlap).toNat).map
            fun c => formatTileLabel r c s.numberingFormat
              (r * (axisCount W (s.bedWidth - 2 * s.margin - s.overlap) s.overlap).toNat + c)
              s.startIndexAtOne := by
    simp [gridOf, List.map_flatMap, List.map_map, Function.comp_def, gridTile]
  rw [htiles]
  apply nodup_label_grid
  intro r c r' c' hc hc' heq
  cases hfmt : s.numberingFormat with
  | R01C01 =>
    rw [hfmt] at heq
    exact label_R01C01_inj heq
  | rowDashCol =>
    rw [hfmt] at heq
    exact label_dash_inj heq
  | Tile001 =>
    rw [hfmt] at heq
    have hi := label_tile_inj heq
    set C := (axisCount W (s.bedWidth - 2 * s.margin - s.overlap) s.overlap).toNat
      with hC
    have hCpos : 0 < C := by omega
    have hcc : c = c' := by
      have h1 : (r * C + c) % C = (r' * C + c') % C := by rw [hi]
      rwa [Nat.mul_comm r C, Nat.mul_comm r' C, Nat.mul_add_mod, Nat.mul_add_mod,
        Nat.mod_eq_of_lt hc, Nat.mod_eq_of_lt hc'] at h1
    subst hcc
    have hrr : r = r' := by
      have h1 : r * C = r' * C := by omega
      exact Nat.eq_of_mul_eq_mul_right hCpos h1
    exact ⟨hrr, rfl⟩

/-- Witness for C6: the 3×3 scenario grid has pairwise distinct labels. -/
theorem computeGrid_labels_nodup_witness :
    computeGrid 600 400 scenarioSettings
      = Except.ok (gridOf 600 400 scenarioSettings) ∧
    ((gridOf 600 400 scenarioSettings).tiles.map TileInfo.label).Nodup := by
  have hok : computeGrid 600 400 scenarioSettings
      = Except.ok (gridOf 600 400 scenarioSettings) :=
    computeGrid_eq_ok 600 400 scenarioSettings
      (by simp only [scenarioSettings]; norm_num)
      (by simp only [scenarioSettings]; norm_num)
      (by simp only [scenarioSettings]; norm_num)
      (by simp only [scenarioSettings]; norm_num)
  exact ⟨hok, computeGrid_labels_nodup 600 400 scenarioSettings _ hok⟩

/-! ## parser.ts -/

/-- The `UNIT_TO_MM` lookup table (25.4 mm per inch). -/
def UNIT_TO_MM (u : String) : Option ℚ :=
  if u = "mm" then some 1
  else if u = "cm" then some 10
  else if u = "in" then some (254 / 10)
  else if u = "pt" then some (254 / 10 / 72)
  else if u = "pc" then some (254 / 10 / 6)
  else if u = "px" then some (254 / 10 / 96)
  else none

/-- `convertToMm` from parser.ts: explicit pixel modes special-case the `px`
unit, everything else goes through the lookup table (defaulting to the px
factor for unknown units). -/
def convertToMm (value : ℚ) (unit : String) (unitMode : UnitMode) : ℚ :=
  if unitMode = UnitMode.px96 ∧ unit = "px" then value * (254 / 10 / 96)
  else if unitMode = UnitMode.px72 ∧ unit = "px" then value * (254 / 10 / 72)
  else value * ((UNIT_TO_MM unit.toLower).getD (254 / 10 / 96))

/-! ## marks.ts -/

structure MarkPosition where
  x : ℚ
  y : ℚ
deriving DecidableEq

/-- `generateMarkPositions` from marks.ts (the tile row/column arguments are
unused by the source as well). -/
def generateMarkPositions (gridInfo : GridInfo) (s : Settings)
    (tileRow tileCol : ℕ) : List MarkPosition :=
  if !s.registrationMarks.enabled then []
  else
    let margin := s.margin
    let markSize := s.registrationMarks.size
    let offset := markSize / 2 + 1
    let effW := gridInfo.effectiveTileWidth
    let effH := gridInfo.effectiveTileHeight
    match s.registrationMarks.placement with
    | MarkPlacement.inside =>
        [⟨margin + offset, margin + offset⟩,
         ⟨margin + effW - offset, margin + offset⟩,
         ⟨margin + offset, margin + effH - offset⟩,
         ⟨margin + effW - offset, margin + effH - offset⟩]
    | MarkPlacement.overlap =>
        let overlapOffset := if s.overlap > 0 then s.overlap / 2 else offset
        [⟨margin - overlapOffset, margin - overlapOffset⟩,
         ⟨margin + effW + overlapOffset, margin - overlapOffset⟩,
         ⟨margin - overlapOffset, margin + effH + overlapOffset⟩,
         ⟨margin + effW + overlapOffset, margin + effH + overlapOffset⟩]

/-! ## tiler.ts (paper.js boolean geometry modelled as an oracle) -/

/-- Outcome of a primitive's boolean intersection with the crop window inside
`processSingleTile`: the operator can throw, return an empty (degenerate)
path (`intersectPath` returning null, or `isEmptyPath` true), or return a
non-empty trimmed path. -/
inductive IntersectOutcome
  | throws
  | empty
  | nonempty
deriving DecidableEq

/-- One flattened path primitive, carrying the oracle outcomes of the two
geometry queries `processSingleTile` makes about it. -/
structure Primitive where
  boundsIntersectsTile : Bool
  intersectOutcome : IntersectOutcome
deriving DecidableEq

/-- An item pushed to `trimmedItems`: either the style-copied boolean
intersection of a primitive, or an unmodified clone kept by the fallback. -/
inductive ClippedItem
  | trimmed (p : Primitive)
  | fallbackClone (p : Primitive)
deriving DecidableEq

/-- The produced tile geometry: an exact-trim group of clipped items, or the
fast-clip mask group wrapping the whole import. -/
inductive TileContent
  | trimmedGroup (items : List ClippedItem)
  | maskGroup (prims : List Primitive)
deriving DecidableEq

/-- Final per-tile state: the mutated `isEmpty` / `hasUnsafeFallback` flags
and the returned result (`none` models the `return null` paths). -/
structure TileOutcome where
  isEmpty : Bool
  hasUnsafeFallback : Bool
  result : Option TileContent
deriving DecidableEq

/-- Body of the `for (const path of allPaths)` loop of the laser-safe branch:
accumulates `(trimmedItems, hasContent, hasUnsafeFallback)`. -/
def laserStep (acc : List ClippedItem × Bool × Bool) (p : Primitive) :
    List ClippedItem × Bool × Bool :=
  if !p.boundsIntersectsTile then acc
  else
    match p.intersectOutcome with
    | IntersectOutcome.nonempty => (acc.1 ++ [ClippedItem.trimmed p], true, acc.2.2)
    | IntersectOutcome.empty => acc
    | IntersectOutcome.throws =>
        if p.boundsIntersectsTile then
          (acc.1 ++ [ClippedItem.fallbackClone p], true, true)
        else acc

def laserLoop (prims : List Primitive) : List ClippedItem × Bool × Bool :=
  prims.foldl laserStep ([], false, false)

/-- `processSingleTile` from tiler.ts, as a function of the import success,
the flattened primitives and the settings. -/
def processSingleTile (s : Settings) (importOk : Bool)
    (prims : List Primitive) : TileOutcome :=
  if !importOk then
    { isEmpty := true, hasUnsafeFallback := false, result := none }
  else if s.exportMode = ExportMode.laserSafe then
    match laserLoop prims with
    | (items, hasContent, hasUnsafe) =>
      if !hasContent && !s.exportEmptyTiles then
        { isEmpty := true, hasUnsafeFallback := false, result := none }
      else
        { isEmpty := !hasContent, hasUnsafeFallback := hasUnsafe,
          result := some (TileContent.trimmedGroup items) }
  else
    { isEmpty := false, hasUnsafeFallback := false,
      result := some (TileContent.maskGroup prims) }

/-- What the loop keeps for one primitive: the trimmed result when the
intersection is non-empty, a fallback clone when it throws, nothing when it
comes back empty or the bounds test fails. -/
def clippedItemOf (p : Primitive) : Option ClippedItem :=
  if p.boundsIntersectsTile then
    match p.intersectOutcome with
    | IntersectOutcome.nonempty => some (ClippedItem.trimmed p)
    | IntersectOutcome.empty => none
    | IntersectOutcome.throws => some (ClippedItem.fallbackClone p)
  else none

/-- Whether a primitive makes the loop set `hasContent`. -/
def contributesB (p : Primitive) : Bool :=
  p.boundsIntersectsTile &&
    (match p.intersectOutcome with
     | IntersectOutcome.nonempty => true
     | IntersectOutcome.throws => true
     | IntersectOutcome.empty => false)

/-- Whether a primitive makes the loop set `hasUnsafeFallback`: its bounds
intersect the crop window and its boolean intersection throws. -/
def unsafeB (p : Primitive) : Bool :=
  p.boundsIntersectsTile &&
    (match p.intersectOutcome with
     | IntersectOutcome.throws => true
     | _ => false)

theorem foldl_laserStep (prims : List Primitive) :
    ∀ acc : List ClippedItem × Bool × Bool,
    prims.foldl laserStep acc
      = (acc.1 ++ prims.filterMap clippedItemOf,
         acc.2.1 || prims.any contributesB,
         acc.2.2 || prims.any unsafeB) := by
  induction prims with
  | nil => simp
  | cons p rest ih =>
    intro acc
    rw [List.foldl_cons, ih]
    rcases p with ⟨b, o⟩
    cases b <;> cases o <;>
      simp [laserStep, clippedItemOf, contributesB, unsafeB, Bool.or_assoc]

theorem laserLoop_eq (prims : List Primitive) :
    laserLoop prims
      = (prims.filterMap clippedItemOf, prims.any contributesB,
         prims.any unsafeB) := by
  simpa using foldl_laserStep prims ([], false, false)

/-- `processTiles` loop from tiler.ts: the cancellation predicate is polled
once per tile before processing it; `cancel i` is the value of
`shouldCancel()` at the i-th poll; non-null results are collected. -/
def processTilesGo (s : Settings) (cancel : ℕ → Bool) :
    ℕ → List (Bool × List Primitive) → List TileOutcome →
    Except String (List TileOutcome)
  | _, [], acc => Except.ok acc
  | i, t :: rest, acc =>
    if cancel i then Except.error "Processing cancelled"
    else
      match (processSingleTile s t.1 t.2).result with
      | some _ => processTilesGo s cancel (i + 1) rest
          (acc ++ [processSingleTile s t.1 t.2])
      | none => processTilesGo s cancel (i + 1) rest acc

def processTiles (s : Settings) (cancel : ℕ → Bool)
    (tasks : List (Bool × List Primitive)) :
    Except String (List TileOutcome) :=
  processTilesGo s cancel 0 tasks []

/-! ## App.tsx processing state -/

inductive Phase
  | idle
  | preparing
  | tiling
  | exporting
  | done
  | cancelled
deriving DecidableEq

structure ProcessingState where
  isProcessing : Bool
  currentTile : ℕ
  totalTiles : ℕ
  phase : Phase
  error : Option String
deriving DecidableEq

/-- The terminal `ProcessingState` of `handleGenerate` together with the tile
results surfaced by that run, as a function of the batch outcome: the success
path surfaces the results and sets phase `done`; the catch path surfaces
nothing, resets phase to `idle`, and maps the cancellation message to a null
error. -/
def handleGenerateFinal (total : ℕ)
    (res : Except String (List TileOutcome)) :
    ProcessingState × Option (List TileOutcome) :=
  match res with
  | Except.ok results =>
      ({ isProcessing := false, currentTile := total, totalTiles := total,
         phase := Phase.done, error := none }, some results)
  | Except.error msg =>
      ({ isProcessing := false, currentTile := 0, totalTiles := 0,
         phase := Phase.idle,
         error := if msg = "Processing cancelled" then none else some msg },
       none)

/-- `handleCancel` from App.tsx: flips the cancel flag and shows the
`cancelled` phase. -/
def handleCancel (st : ProcessingState) : ProcessingState :=
  { st with phase := Phase.cancelled }

/-! ## Laser-safe branch characterization -/

theorem processSingleTile_laser (s : Settings) (prims : List Primitive)
    (hmode : s.exportMode = ExportMode.laserSafe) :
    processSingleTile s true prims =
      if !(prims.any contributesB) && !s.exportEmptyTiles then
        { isEmpty := true, hasUnsafeFallback := false, result := none }
      else
        { isEmpty := !(prims.any contributesB),
          hasUnsafeFallback := prims.any unsafeB,
          result := some (TileContent.trimmedGroup
            (prims.filterMap clippedItemOf)) } := by
  simp [processSingleTile, hmode, laserLoop_eq]

theorem unsafeB_le_contributesB (p : Primitive) (h : unsafeB p = true) :
    contributesB p = true := by
  rcases p with ⟨b, o⟩
  cases b <;> cases o <;> simp_all [unsafeB, contributesB]

theorem any_unsafe_of_any (prims : List Primitive)
    (h : prims.any contributesB = false) : prims.any unsafeB = false := by
  rw [Bool.eq_false_iff]
  intro hu
  rw [List.any_eq_true] at hu
  obtain ⟨p, hp, hpu⟩ := hu
  have := unsafeB_le_contributesB p hpu
  rw [Bool.eq_false_iff] at h
  exact h (List.any_eq_true.mpr ⟨p, hp, this⟩)

/-! ## C3 -/

/-- Laser-safe settings that keep empty tiles, so that the produced item list
is observable even for an empty tile. -/
def laserKeepEmptySettings : Settings :=
  { scenarioSettings with exportEmptyTiles := true }

/-- A primitive whose bounds intersect the crop window but whose boolean
intersection comes back empty without throwing. -/
def emptyIntersectPrim : Primitive :=
  { boundsIntersectsTile := true, intersectOutcome := IntersectOutcome.empty }

/-- C3 counterexample: an empty-but-intersecting boolean result is NOT
treated like a failure — the clipper keeps no clone of the primitive and
leaves `hasUnsafeFallback` false (the tile just ends up empty). -/
theorem processSingleTile_emptyResult_counterexample :
    (processSingleTile laserKeepEmptySettings true
        [emptyIntersectPrim]).hasUnsafeFallback = false ∧
    (processSingleTile laserKeepEmptySettings true [emptyIntersectPrim]).result
      = some (TileContent.trimmedGroup []) ∧
    (processSingleTile laserKeepEmptySettings true
        [emptyIntersectPrim]).isEmpty = true := by
  decide

/-- C3 amended: under the exact-trim strategy a primitive whose bounding box
intersects the crop window but whose boolean intersection returns an empty
result without throwing is silently skipped — it contributes neither a
trimmed result nor a fallback clone — and it never sets `hasUnsafeFallback`;
the flag is set exactly when some bounds-intersecting primitive's
intersection throws. -/
theorem processSingleTile_emptyResult_skipped (s : Settings)
    (pre post : List Primitive) (p : Primitive)
    (hmode : s.exportMode = ExportMode.laserSafe)
    (hb : p.boundsIntersectsTile = true)
    (ho : p.intersectOutcome = IntersectOutcome.empty) :
    (∀ items, (processSingleTile s true (pre ++ p :: post)).result
        = some (TileContent.trimmedGroup items) →
      items = pre.filterMap clippedItemOf ++ post.filterMap clippedItemOf) ∧
    (processSingleTile s true (pre ++ p :: post)).hasUnsafeFallback
      = (pre ++ post).any unsafeB := by
  have hskip : clippedItemOf p = none := by simp [clippedItemOf, hb, ho]
  have hunsafe : unsafeB p = false := by simp [unsafeB, hb, ho]
  rw [processSingleTile_laser s _ hmode]
  by_cases hcond :
      (!((pre ++ p :: post).any contributesB) && !s.exportEmptyTiles) = true
  · rw [if_pos hcond]
    constructor
    · intro items hres
      simp at hres
    · have hfalse : (pre ++ p :: post).any contributesB = false := by
        cases hb2 : (pre ++ p :: post).any contributesB
        · rfl
        · simp [hb2] at hcond
      have := any_unsafe_of_any _ hfalse
      simp only [List.any_append, List.any_cons, hunsafe] at this ⊢
      simp_all
  · rw [if_neg hcond]
    constructor
    · intro items hres
      simp only [Option.some.injEq, TileContent.trimmedGroup.injEq] at hres
      rw [← hres]
      simp [List.filterMap_append, List.filterMap_cons, hskip]
    · simp [List.any_append, List.any_cons, hunsafe]

/-- Witness for the amended C3 at concrete inputs: a non-empty neighbour is
trimmed, the empty-result primitive vanishes, the flag stays clear. -/
theorem processSingleTile_emptyResult_skipped_witness :
    laserKeepEmptySettings.exportMode = ExportMode.laserSafe ∧
    emptyIntersectPrim.boundsIntersectsTile = true ∧
    emptyIntersectPrim.intersectOutcome = IntersectOutcome.empty ∧
    (processSingleTile laserKeepEmptySettings true
        ([(⟨true, IntersectOutcome.nonempty⟩ : Primitive)]
          ++ emptyIntersectPrim :: [])).hasUnsafeFallback
      = ([(⟨true, IntersectOutcome.nonempty⟩ : Primitive)] ++ []).any unsafeB := by
  refine ⟨rfl, rfl, rfl, ?_⟩
  exact (processSingleTile_emptyResult_skipped laserKeepEmptySettings
    [⟨true, IntersectOutcome.nonempty⟩] [] emptyIntersectPrim rfl rfl rfl).2

/-! ## C4 -/

theorem processTilesGo_cons (s : Settings) (cancel : ℕ → Bool) (i : ℕ)
    (t : Bool × List Primitive) (rest : List (Bool × List Primitive))
    (acc : List TileOutcome) :
    processTilesGo s cancel i (t :: rest) acc =
      if cancel i then Except.error "Processing cancelled"
      else match (processSingleTile s t.1 t.2).result with
        | some _ => processTilesGo s cancel (i + 1) rest
            (acc ++ [processSingleTile s t.1 t.2])
        | none => processTilesGo s cancel (i + 1) rest acc := rfl

theorem processTilesGo_total (s : Settings) (cancel : ℕ → Bool)
    (hc : ∀ i, cancel i = false) :
    ∀ (tasks : List (Bool × List Primitive)) (i : ℕ) (acc : List TileOutcome),
    ∃ rs, processTilesGo s cancel i tasks acc = Except.ok rs := by
  intro tasks
  induction tasks with
  | nil =>
    intro i acc
    exact ⟨acc, rfl⟩
  | cons t rest ih =>
    intro i acc
    rw [processTilesGo_cons, if_neg (by simp [hc i])]
    cases hres : (processSingleTile s t.1 t.2).result
    · simpa [hres] using ih (i + 1) acc
    · simpa [hres] using ih (i + 1) (acc ++ [processSingleTile s t.1 t.2])

/-- C4: a primitive whose boolean intersection throws is kept as an
unmodified clone, the tile's `hasUnsafeFallback` becomes true while `isEmpty`
stays false, the remaining primitives are still processed (the produced group
is the per-primitive clipping of the prefix, the clone, then the per-primitive
clipping of the suffix), and a batch with no cancellation always completes
with an `ok` result. -/
theorem processSingleTile_throw_fallback (s : Settings)
    (pre post : List Primitive) (p : Primitive)
    (hmode : s.exportMode = ExportMode.laserSafe)
    (hb : p.boundsIntersectsTile = true)
    (ho : p.intersectOutcome = IntersectOutcome.throws) :
    (processSingleTile s true (pre ++ p :: post)).hasUnsafeFallback = true ∧
    (processSingleTile s true (pre ++ p :: post)).isEmpty = false ∧
    (processSingleTile s true (pre ++ p :: post)).result
      = some (TileContent.trimmedGroup
          (pre.filterMap clippedItemOf
            ++ ClippedItem.fallbackClone p :: post.filterMap clippedItemOf)) ∧
    (∀ (tasks : List (Bool × List Primitive)) (cancel : ℕ → Bool),
      (∀ i, cancel i = false) →
      ∃ rs, processTiles s cancel tasks = Except.ok rs) := by
  have hcontr : contributesB p = true := by simp [contributesB, hb, ho]
  have hunsafe : unsafeB p = true := by simp [unsafeB, hb, ho]
  have hitem : clippedItemOf p = some (ClippedItem.fallbackClone p) := by
    simp [clippedItemOf, hb, ho]
  have hany : (pre ++ p :: post).any contributesB = true := by
    simp [List.any_append, List.any_cons, hcontr]
  rw [processSingleTile_laser s _ hmode]
  rw [if_neg (by simp [hany])]
  refine ⟨?_, ?_, ?_, ?_⟩
  · simp [List.any_append, List.any_cons, hunsafe]
  · simp [hany]
  · simp [List.filterMap_append, List.filterMap_cons, hitem]
  · intro tasks cancel hc
    exact processTilesGo_total s cancel hc tasks 0 []

/-- Witness for C4 at concrete inputs. -/
theorem processSingleTile_throw_fallback_witness :
    scenarioSettings.exportMode = ExportMode.laserSafe ∧
    (⟨true, IntersectOutcome.throws⟩ : Primitive).boundsIntersectsTile = true ∧
    (⟨true, IntersectOutcome.throws⟩ : Primitive).intersectOutcome
      = IntersectOutcome.throws ∧
    (processSingleTile scenarioSettings true
        ([⟨true, IntersectOutcome.nonempty⟩]
          ++ (⟨true, IntersectOutcome.throws⟩ : Primitive)
            :: [⟨true, IntersectOutcome.nonempty⟩])).hasUnsafeFallback = true ∧
    (processSingleTile scenarioSettings true
        ([⟨true, IntersectOutcome.nonempty⟩]
          ++ (⟨true, IntersectOutcome.throws⟩ : Primitive)
            :: [⟨true, IntersectOutcome.nonempty⟩])).isEmpty = false := by
  have h := processSingleTile_throw_fallback scenarioSettings
    [⟨true, IntersectOutcome.nonempty⟩] [⟨true, IntersectOutcome.nonempty⟩]
    ⟨true, IntersectOutcome.throws⟩ rfl rfl rfl
  exact ⟨rfl, rfl, rfl, h.1, h.2.1⟩

/-! ## C9 -/

/-- C9: under the fast-mask strategy the tile result is always produced (for
a successful import), wrapping the whole geometry in the clip mask, with
`isEmpty = false` and `hasUnsafeFallback = false`, whatever the primitives
and the `exportEmptyTiles` setting. -/
theorem processSingleTile_fastClip (s : Settings) (prims : List Primitive)
    (hmode : s.exportMode = ExportMode.fastClip) :
    processSingleTile s true prims
      = { isEmpty := false, hasUnsafeFallback := false,
          result := some (TileContent.maskGroup prims) } := by
  simp [processSingleTile, hmode]

/-- Settings for the fast-clip witness, with empty-tile export disabled. -/
def fastClipSettings : Settings :=
  { scenarioSettings with exportMode := ExportMode.fastClip }

/-- Witness for C9: even with no geometry inside the crop window and
`exportEmptyTiles = false`, the fast-clip tile is produced and non-empty. -/
theorem processSingleTile_fastClip_witness :
    fastClipSettings.exportMode = ExportMode.fastClip ∧
    fastClipSettings.exportEmptyTiles = false ∧
    processSingleTile fastClipSettings true
        [⟨false, IntersectOutcome.empty⟩]
      = { isEmpty := false, hasUnsafeFallback := false,
          result := some (TileContent.maskGroup
            [⟨false, IntersectOutcome.empty⟩]) } :=
  ⟨rfl, rfl,
    processSingleTile_fastClip fastClipSettings
      [⟨false, IntersectOutcome.empty⟩] rfl⟩

/-! ## C5 -/

/-- A cancellation predicate that becomes true after the first tile
completes: false at the 0th poll, true from the 1st poll on. -/
def cancelAfterFirst (i : ℕ) : Bool := decide (1 ≤ i)

/-- A batch of three importable tiles, each with one clippable primitive. -/
def threeTasks : List (Bool × List Primitive) :=
  [(true, [⟨true, IntersectOutcome.nonempty⟩]),
   (true, [⟨true, IntersectOutcome.nonempty⟩]),
   (true, [⟨true, IntersectOutcome.nonempty⟩])]

/-- C5 counterexample: cancelling after tile 1 of 3 surfaces zero tile
results and no error, but the run's terminal phase is `idle`, not
`cancelled` — the `cancelled` phase value is only set transiently by the
cancel handler and is overwritten by the catch path. -/
theorem handleGenerate_cancel_counterexample :
    2 < threeTasks.length ∧
    processTiles scenarioSettings cancelAfterFirst threeTasks
      = Except.error "Processing cancelled" ∧
    (handleGenerateFinal threeTasks.length
      (processTiles scenarioSettings cancelAfterFirst threeTasks)).2 = none ∧
    (handleGenerateFinal threeTasks.length
      (processTiles scenarioSettings cancelAfterFirst threeTasks)).1.error
      = none ∧
    (handleGenerateFinal threeTasks.length
      (processTiles scenarioSettings cancelAfterFirst threeTasks)).1.phase
      = Phase.idle ∧
    ¬((handleGenerateFinal threeTasks.length
      (processTiles scenarioSettings cancelAfterFirst threeTasks)).1.phase
      = Phase.cancelled) := by
  refine ⟨by decide, rfl, rfl, rfl, rfl, by decide⟩

/-- C5 amended: with N > 2 tiles and the cancellation predicate false at the
0th poll and true at the 1st (i.e. cancellation requested after tile 1
completes), the batch throws the cancellation sentinel; the caller surfaces
zero tile results of that run and absorbs the cancellation — terminal
`error = none` and terminal phase `idle` (not an error state); the
`cancelled` phase is only what the cancel handler shows transiently. -/
theorem processTiles_cancel_after_first (s : Settings) (cancel : ℕ → Bool)
    (tasks : List (Bool × List Primitive))
    (hlen : 2 < tasks.length)
    (h0 : cancel 0 = false) (h1 : cancel 1 = true) :
    processTiles s cancel tasks = Except.error "Processing cancelled" ∧
    (handleGenerateFinal tasks.length (processTiles s cancel tasks)).2
      = none ∧
    (handleGenerateFinal tasks.length (processTiles s cancel tasks)).1.error
      = none ∧
    (handleGenerateFinal tasks.length (processTiles s cancel tasks)).1.phase
      = Phase.idle ∧
    (∀ st : ProcessingState, (handleCancel st).phase = Phase.cancelled) := by
  have herr : processTiles s cancel tasks
      = Except.error "Processing cancelled" := by
    rcases tasks with _ | ⟨t0, tl⟩
    · simp at hlen
    rcases tl with _ | ⟨t1, rest⟩
    · simp at hlen
    show processTilesGo s cancel 0 (t0 :: t1 :: rest) [] = _
    rw [processTilesGo_cons, if_neg (by simp [h0])]
    cases hres : (processSingleTile s t0.1 t0.2).result
    · simp only [hres]
      rw [processTilesGo_cons, if_pos (by simp [h1])]
    · simp only [hres]
      rw [processTilesGo_cons, if_pos (by simp [h1])]
  rw [herr]
  refine ⟨rfl, rfl, ?_, rfl, fun st => rfl⟩
  simp [handleGenerateFinal]

/-- Witness for the amended C5 at concrete inputs. -/
theorem processTiles_cancel_after_first_witness :
    2 < threeTasks.length ∧
    cancelAfterFirst 0 = false ∧
    cancelAfterFirst 1 = true ∧
    processTiles scenarioSettings cancelAfterFirst threeTasks
      = Except.error "Processing cancelled" ∧
    (handleGenerateFinal threeTasks.length
      (processTiles scenarioSettings cancelAfterFirst threeTasks)).2
      = none := by
  have h := processTiles_cancel_after_first scenarioSettings cancelAfterFirst
    threeTasks (by decide) (by decide) (by decide)
  exact ⟨by decide, by decide, by decide, h.1, h.2.1⟩

/-! ## C7 -/

/-- C7: for any unit string other than `"px"`, the conversion to canonical
millimetres is the same under all three pixel modes — the mode only affects
pixel-denominated lengths. -/
theorem convertToMm_mode_independent (value : ℚ) (unit : String)
    (h : unit ≠ "px") (m₁ m₂ : UnitMode) :
    convertToMm value unit m₁ = convertToMm value unit m₂ := by
  simp [convertToMm, h]

/-- Witness for C7: centimetres convert identically under `auto` and
`explicit-72`. -/
theorem convertToMm_mode_independent_witness :
    ("cm" : String) ≠ "px" ∧
    convertToMm 2 "cm" UnitMode.auto = convertToMm 2 "cm" UnitMode.px72 :=
  ⟨by decide,
    convertToMm_mode_independent 2 "cm" (by decide) UnitMode.auto UnitMode.px72⟩

/-! ## C8 -/

/-- C8: with registration marks enabled and placement `inside`, exactly four
positions are produced, one per corner, each offset `size/2 + 1` inward from
the tile's margin corners along both axes; size 6 gives offset 4. -/
theorem generateMarkPositions_inside (g : GridInfo) (s : Settings)
    (tileRow tileCol : ℕ)
    (hen : s.registrationMarks.enabled = true)
    (hpl : s.registrationMarks.placement = MarkPlacement.inside) :
    generateMarkPositions g s tileRow tileCol =
      [⟨s.margin + (s.registrationMarks.size / 2 + 1),
        s.margin + (s.registrationMarks.size / 2 + 1)⟩,
       ⟨s.margin + g.effectiveTileWidth - (s.registrationMarks.size / 2 + 1),
        s.margin + (s.registrationMarks.size / 2 + 1)⟩,
       ⟨s.margin + (s.registrationMarks.size / 2 + 1),
        s.margin + g.effectiveTileHeight - (s.registrationMarks.size / 2 + 1)⟩,
       ⟨s.margin + g.effectiveTileWidth - (s.registrationMarks.size / 2 + 1),
        s.margin + g.effectiveTileHeight
          - (s.registrationMarks.size / 2 + 1)⟩] ∧
    (s.registrationMarks.size = 6 → s.registrationMarks.size / 2 + 1 = 4) := by
  constructor
  · simp [generateMarkPositions, hen, hpl]
  · intro h6
    rw [h6]
    norm_num

/-- The scenario settings with registration marks of size 6 enabled, placed
inside the margin. -/
def marksSettings : Settings :=
  { scenarioSettings with
    registrationMarks :=
      { enabled := true
        type := RegistrationMarkType.crosshair
        placement := MarkPlacement.inside
        size := 6
        strokeWidth := 1/5
        holeDiameter := 2 } }

/-- Witness for C8: on the 600×400 scenario grid (margin 5, effective tile
290×190) with mark size 6 the four corner marks sit 4 units inside each
margin corner. -/
theorem generateMarkPositions_inside_witness :
    marksSettings.registrationMarks.enabled = true ∧
    marksSettings.registrationMarks.placement = MarkPlacement.inside ∧
    marksSettings.registrationMarks.size = 6 ∧
    generateMarkPositions (gridOf 600 400 marksSettings) marksSettings 0 0
      = [⟨9, 9⟩, ⟨291, 9⟩, ⟨9, 191⟩, ⟨291, 191⟩] := by
  obtain ⟨hlist, _⟩ := generateMarkPositions_inside
    (gridOf 600 400 marksSettings) marksSettings 0 0 rfl rfl
  refine ⟨rfl, rfl, rfl, ?_⟩
  rw [hlist]
  norm_num [gridOf, marksSettings, scenarioSettings]

end PanelSplitter
